import Mathlib

/-!
Shallow embedding of `lamenv` (celian-garcia/lamenv, `src/lamenv.go`): a
recursive binder of environment variables onto Go values via reflection.

Modelling conventions:
* The process environment (`os.Environ`) is an association list of
  `(name, value)` pairs, `Env`.
* Go `reflect.Value`s are modelled by the inductive `Value`, which carries
  its own type information (element types for slices, key/value types for
  maps, field metadata for structs) exactly as a `reflect.Value` does.
* The recursive engine `decode` is written with explicit fuel so that every
  definition is executable and kernel-reducible; the Go recursion always
  terminates on finite data, and every theorem quantifies over (or fixes)
  sufficient fuel.
* String primitives (`strings.ToUpper`, `strings.Split`, `strings.Contains`,
  `strings.TrimSpace`, …) are re-implemented over `List Char` so that they
  reduce inside the kernel; they agree with the Go originals on the ASCII
  data the engine handles.
* Machine integers: `strconv.ParseInt(s, 10, 0)` parses into the 64-bit
  native width; `reflect.Value.SetInt`/`SetUint` store by converting to the
  target's declared width, i.e. two's-complement truncation.  Integers are
  modelled as `Int`/`Nat` with explicit wrapping.
* Errors are `Except String`; fallible Go functions returning `error`
  become `Except String` computations.
* Pointer indirection (`reflect.Ptr`) and floating-point fields are not
  modelled: no claim depends on them (floats are IEEE-754 and out of scope
  for the embedding).
-/

deriving instance DecidableEq for Except

/-! ## String helpers (package strings) -/

/-- `strings.ToUpper` (ASCII): uppercase every character. -/
def toUpperStr (s : String) : String := String.mk (s.data.map Char.toUpper)

/-- `strings.ToLower` (ASCII): lowercase every character. -/
def toLowerStr (s : String) : String := String.mk (s.data.map Char.toLower)

/-- `strings.TrimSpace`: drop whitespace from both ends. -/
def trimSpace (s : String) : String :=
  String.mk (((s.data.dropWhile Char.isWhitespace).reverse.dropWhile Char.isWhitespace).reverse)

/-- Auxiliary for `splitOnChar`: accumulate the current field (reversed). -/
def splitOnCharAux (sep : Char) : List Char → List Char → List String
  | [], acc => [String.mk acc.reverse]
  | c :: rest, acc =>
    if c == sep then String.mk acc.reverse :: splitOnCharAux sep rest []
    else splitOnCharAux sep rest (c :: acc)

/-- `strings.Split s (String.mk [sep])` for a one-character separator. -/
def splitOnChar (sep : Char) (s : String) : List String :=
  splitOnCharAux sep s.data []

/-- Substring test on character lists (auxiliary for `strContains`). -/
def isInfixOfChars (needle : List Char) : List Char → Bool
  | [] => needle.isEmpty
  | c :: rest => needle.isPrefixOf (c :: rest) || isInfixOfChars needle rest

/-- `strings.Contains s sub`: `sub` occurs as a contiguous substring of `s`. -/
def strContains (s sub : String) : Bool :=
  isInfixOfChars sub.data s.data

/-- `strings.HasPrefix s pre` (used by `strings.TrimPrefix`). -/
def strHasPrefix (s pre : String) : Bool :=
  pre.data.isPrefixOf s.data

/-- `strings.TrimPrefix s pre`: drop `pre` from the front when present,
otherwise return `s` unchanged. -/
def strTrimPrefix (s pre : String) : String :=
  if strHasPrefix s pre then String.mk (s.data.drop pre.data.length) else s

/-- `strings.Join parts sep`. -/
def joinWith (sep : String) : List String → String
  | [] => ""
  | [x] => x
  | x :: rest => x ++ sep ++ joinWith sep rest

/-- `buildEnvVariable` (lamenv.go:367-373): uppercase every part and join
with `_`. -/
def buildEnvVariable (parts : List String) : String :=
  joinWith "_" (parts.map toUpperStr)

/-! ## The environment -/

/-- The parsed process environment: `(name, value)` pairs, standing for the
raw entries `name=value` of `os.Environ()`. -/
abbrev Env := List (String × String)

/-- The raw `os.Environ()` entry for a pair, split on `=` as the Go code
splits it (`strings.Split(e, "=")`). -/
def envEntrySplit (e : String × String) : List String :=
  splitOnChar '=' (e.1 ++ "=" ++ e.2)

/-- The variable-name snapshot built by `New` (lamenv.go:70-77): the key of
every raw entry that splits into exactly two parts on `=`. -/
def newEnvNames (env : Env) : List String :=
  env.filterMap (fun e =>
    match envEntrySplit e with
    | [k, _] => some k
    | _ => none)

/-- `contains` (lamenv.go:334-346): some defined variable's name contains
`buildEnvVariable parts` as a substring (substring, not prefix-anchored). -/
def contains (env : Env) (parts : List String) : Bool :=
  let varName := buildEnvVariable parts
  env.any (fun e =>
    match envEntrySplit e with
    | [k, _] => strContains k varName
    | _ => false)

/-- `lookupEnv` (lamenv.go:352-356): the built variable name together with
`os.LookupEnv`'s result for it.  Note that this consults the live process
environment, not the consumable snapshot `Lamenv.env`. -/
def lookupEnv (env : Env) (parts : List String) : String × Option String :=
  let varName := buildEnvVariable parts
  (varName, (env.find? (fun e => e.1 == varName)).map (fun e => e.2))

/-! ## Struct tags and tag resolution -/

/-- A Go struct tag, as the association of tag keys (`json`, `yaml`, …) to
their raw spec strings (`reflect.StructTag.Lookup`). -/
abbrev Tag := List (String × String)

/-- `reflect.StructTag.Lookup`: the raw spec string under a tag key. -/
def tagGet (tag : Tag) (key : String) : Option String :=
  (tag.find? (fun p => p.1 == key)).map (fun p => p.2)

/-- `lookupTag` (lamenv.go:358-365): the first supported tag key present on
the field wins, in the order of `tagSupports`. -/
def lookupTag (tag : Tag) (tagSupports : List String) : Option String :=
  match tagSupports with
  | [] => none
  | t :: rest =>
    match tagGet tag t with
    | some s => some s
    | none => lookupTag tag rest

/-- The default supported tag list (lamenv.go:17-19 and `New`,
lamenv.go:79-81): yaml first, then json, then mapstructure. -/
def defaultTagSupported : List String := ["yaml", "json", "mapstructure"]

/-! ## The scalar codec (strconv) -/

/-- Base-10 digit accumulation; `none` as soon as a non-digit appears. -/
def digitsToNat : List Char → Nat → Option Nat
  | [], acc => some acc
  | c :: rest, acc =>
    if c.isDigit then digitsToNat rest (acc * 10 + (c.toNat - 48)) else none

/-- `strconv.ParseBool` (Go standard library): accepts exactly the twelve
literals `1,t,T,TRUE,true,True,0,f,F,FALSE,false,False`. -/
def parseBool (s : String) : Except String Bool :=
  if s == "1" || s == "t" || s == "T" || s == "TRUE" || s == "true" || s == "True" then
    .ok true
  else if s == "0" || s == "f" || s == "F" || s == "FALSE" || s == "false" || s == "False" then
    .ok false
  else .error "invalid syntax"

/-- `strconv.ParseInt(s, 10, 0)`: optional sign, base-10 digits, range
checked against the 64-bit native width. -/
def parseInt64 (s : String) : Except String Int :=
  match s.data with
  | [] => .error "invalid syntax"
  | c :: rest =>
    let signed : Bool × List Char :=
      if c == '-' then (true, rest)
      else if c == '+' then (false, rest) else (false, c :: rest)
    match signed.2 with
    | [] => .error "invalid syntax"
    | ds =>
      match digitsToNat ds 0 with
      | none => .error "invalid syntax"
      | some n =>
        if signed.1 then
          if n ≤ 2 ^ 63 then .ok (-(n : Int)) else .error "value out of range"
        else
          if n < 2 ^ 63 then .ok (n : Int) else .error "value out of range"

/-- `strconv.ParseUint(s, 10, 0)`: base-10 digits, no sign allowed, range
checked against the 64-bit native width. -/
def parseUint64 (s : String) : Except String Nat :=
  match s.data with
  | [] => .error "invalid syntax"
  | ds =>
    match digitsToNat ds 0 with
    | none => .error "invalid syntax"
    | some n => if n < 2 ^ 64 then .ok n else .error "value out of range"

/-- `reflect.Value.SetInt` at a declared width `w`: Go's `int<w>(x)`
conversion, i.e. two's-complement truncation to `w` bits. -/
def wrapInt (w : Nat) (x : Int) : Int :=
  let m : Int := 2 ^ w
  let r := x % m
  if r < m / 2 then r else r - m

/-- `reflect.Value.SetUint` at a declared width `w`: `uint<w>(x)`, i.e.
truncation modulo `2 ^ w`. -/
def wrapUint (w : Nat) (x : Nat) : Nat := x % 2 ^ w

/-- `decodeBool` (lamenv.go:179-186): `ParseBool` after `TrimSpace`. -/
def decodeBool (input : String) : Except String Bool :=
  parseBool (trimSpace input)

/-- `decodeInt` (lamenv.go:188-195) followed by the `SetInt` store at the
target's declared width `w`: parse at the native 64-bit width after
`TrimSpace`, then truncate to `w` bits. -/
def decodeInt (w : Nat) (input : String) : Except String Int :=
  (parseInt64 (trimSpace input)).map (wrapInt w)

/-- `decodeUInt` (lamenv.go:197-204) followed by the `SetUint` store at the
target's declared width `w`. -/
def decodeUInt (w : Nat) (input : String) : Except String Nat :=
  (parseUint64 (trimSpace input)).map (wrapUint w)


/-! ## The data model: Go types and reflect values -/

/-- The structural classification of a bindable Go type, as `reflect.Kind`
dispatches it: the scalar kinds handled by `decodeNative`, slices, maps and
structs.  Struct fields carry `(name, tag, fieldType)`.  Widths: `tint 64`
stands for Go's native `int` as well as `int64`; `tint 8/16/32` for the
narrower declared widths (likewise `tuint`).  Pointers and floats are not
modelled (no claim depends on them). -/
inductive Ty where
  | tstr : Ty
  | tbool : Ty
  | tint : Nat → Ty
  | tuint : Nat → Ty
  | tother : Ty
  | tslice : Ty → Ty
  | tmap : Ty → Ty → Ty
  | tstruct : List (String × Tag × Ty) → Ty

/-- A Go `reflect.Value`, carrying its type information: slices know their
element type, maps their key/value types and whether they are `nil`
(`isNil`), structs their field metadata `(name, tag, canSet, value)`.
`vother` stands for any leaf kind outside `decodeNative`'s switch. -/
inductive Value where
  | vstr : String → Value
  | vbool : Bool → Value
  | vint : Nat → Int → Value
  | vuint : Nat → Nat → Value
  | vother : Value
  | vslice : Ty → List Value → Value
  | vmap : Ty → Ty → Bool → List (String × Value) → Value
  | vstruct : List (String × Tag × Bool × Value) → Value

/-- A struct field as `decodeStruct` sees it: name, tag, `CanSet` (exported),
and the current field value. -/
abbrev FieldV := String × Tag × Bool × Value

/-- `reflect.Indirect(reflect.New(t))`: the zero value of a type (fresh
exported fields for structs, `nil` slices and maps).  The fuel argument only
serves Lean's termination through the nested struct-field list; any fuel
at least the type's depth gives the true zero value. -/
def zeroValue : Nat → Ty → Value
  | 0, _ => .vother
  | _ + 1, .tstr => .vstr ""
  | _ + 1, .tbool => .vbool false
  | _ + 1, .tint w => .vint w 0
  | _ + 1, .tuint w => .vuint w 0
  | _ + 1, .tother => .vother
  | _ + 1, .tslice et => .vslice et []
  | _ + 1, .tmap kt vt => .vmap kt vt true []
  | zf + 1, .tstruct fs => .vstruct (fs.map (fun f => (f.1, f.2.1, true, zeroValue zf f.2.2)))

/-! ## The scalar leaf of the dispatcher -/

/-- `decodeNative` (lamenv.go:142-173), dispatching on the value's kind:
strings are set verbatim (`decodeString`, lamenv.go:175-177), booleans and
integers go through the strconv parsers; any kind outside the switch is
left untouched with no error. -/
def decodeNative (v : Value) (input : String) : Except String Value :=
  match v with
  | .vstr _ => .ok (.vstr input)
  | .vbool _ => (decodeBool input).map Value.vbool
  | .vint w _ => (decodeInt w input).map (Value.vint w)
  | .vuint w _ => (decodeUInt w input).map (Value.vuint w)
  | v' => .ok v'

/-! ## The ring (shape prober), modelled from the spec

`decodeMap` (lamenv.go:295, 308) relies on `newRing` and `guessPrefix` from
ring.go, which is not part of the staged sources; they are modelled here
from the spec's §4.8. -/

/-- The effective lookup name of a struct field for the ring's walk: the
first supported tag's spec string if any, else the field's own name. -/
def ringFieldName (tagSupports : List String) (f : String × Tag × Ty) : String :=
  match lookupTag f.2.1 tagSupports with
  | some t => t
  | none => f.1

/-- A non-empty all-digit segment (a sequence index). -/
def isIndexSegment (s : String) : Bool :=
  !s.data.isEmpty && (digitsToNat s.data 0).isSome

/-- Modelled from the spec: the Shape Prober's acceptance test (ring.go is
not under src/).  `ringSuffixOk ts fuel t suffix` answers whether the
residual segment list `suffix` "looks like a valid instance" of shape `t`:
for a scalar shape only the empty suffix is valid; for a record the suffix
must be a non-empty path starting with one of the record's own (effective)
field names; for a sequence it must start with a numeric index segment.
The fuel is at least `suffix.length + 1` at every call site. -/
def ringSuffixOk (tagSupports : List String) : Nat → Ty → List String → Bool
  | 0, _, _ => false
  | _ + 1, .tstruct fs, s :: rest =>
    fs.any (fun f =>
      toUpperStr (ringFieldName tagSupports f) == s &&
        (rest.isEmpty || ringSuffixOk tagSupports ((s :: rest).length - 1 + 1 - 1) f.2.2 rest))
  | _ + 1, .tstruct _, [] => false
  | _ + 1, .tslice et, s :: rest =>
    isIndexSegment s && (rest.isEmpty || ringSuffixOk tagSupports rest.length et rest)
  | _ + 1, .tslice _, [] => false
  | _ + 1, .tmap _ _, _ => false
  | _ + 1, _, suffix => suffix.isEmpty

/-- Modelled from the spec: `guessPrefix` (ring.go is not under src/).  The
shortest non-empty leading run of segments whose removal leaves a suffix the
Shape Prober recognizes as the value shape; the run is rejoined with `_`.
The empty string signals "no valid split" and makes the caller skip the
variable. -/
def guessPrefix (futureParts : List String) (vt : Ty) (tagSupports : List String) :
    Except String String :=
  match ((List.range futureParts.length).map (fun k => k + 1)).find?
      (fun k => ringSuffixOk tagSupports (futureParts.length + 1) vt (futureParts.drop k)) with
  | some k => .ok (joinWith "_" (futureParts.take k))
  | none => .ok ""

/-! ## The binding strategies -/

/-- `reflect.Value.SetMapIndex` on the association-list model of a Go map:
insert or overwrite the binding of `k`. -/
def mapSet : List (String × Value) → String → Value → List (String × Value)
  | [], k, v => [(k, v)]
  | (k', v') :: rest, k, v =>
    if k' == k then (k, v) :: rest else (k', v') :: mapSet rest k v

/-- `decodeStruct` (lamenv.go:235-273), abstracted over the Dispatcher
`dec`: for each field in declaration order, skip unsettable fields, resolve
the tag (`-` skips, `,squash`/`,inline` recurses at the same path, a spec
containing `omitempty` is skipped when no variable contains the probe built
from the raw spec string), then recurse at `parts ++ [attrName]`.  The first
error aborts the walk. -/
def decodeStructFields
    (dec : Value → List String → List String → Except String (Value × List String))
    (env : Env) (tagSupports : List String) :
    List FieldV → List String → List String → Except String (List FieldV × List String)
  | [], lenv, _ => .ok ([], lenv)
  | (fname, tag, canSet, v) :: rest, lenv, parts =>
    let step : Except String (Value × List String) :=
      if !canSet then .ok (v, lenv)
      else
        match lookupTag tag tagSupports with
        | some attrName =>
          if attrName == "-" then .ok (v, lenv)
          else if attrName == ",squash" || attrName == ",inline" then dec v lenv parts
          else if strContains attrName "omitempty" && !(contains env (parts ++ [attrName])) then
            .ok (v, lenv)
          else dec v lenv (parts ++ [attrName])
        | none => dec v lenv (parts ++ [fname])
    match step with
    | .error e => .error e
    | .ok (v', lenv') =>
      match decodeStructFields dec env tagSupports rest lenv' parts with
      | .error e => .error e
      | .ok (rest', lenv'') => .ok ((fname, tag, canSet, v') :: rest', lenv'')

/-- `decodeSlice` (lamenv.go:218-233), abstracted over the Dispatcher `dec`:
starting at index `i`, while some variable contains
`buildEnvVariable (parts ++ [i])`, decode a fresh zero element at
`parts ++ [i]` and append it to the accumulated elements; stop at the first
index whose probe fails.  The fuel only bounds the loop for Lean. -/
def decodeSliceLoop
    (dec : Value → List String → List String → Except String (Value × List String))
    (env : Env) (sliceTy : Ty) (zf : Nat) (parts : List String) :
    Nat → Nat → List Value → List String → Except String (Value × List String)
  | 0, _, _, _ => .error "out of fuel"
  | fuel + 1, i, elems, lenv =>
    if contains env (parts ++ [Nat.repr i]) then
      match dec (zeroValue zf sliceTy) lenv (parts ++ [Nat.repr i]) with
      | .error e => .error e
      | .ok (tmp, lenv') =>
        decodeSliceLoop dec env sliceTy zf parts fuel (i + 1) (elems ++ [tmp]) lenv'
    else .ok (.vslice sliceTy elems, lenv)

/-- The `for e := range l.env` loop of `decodeMap` (lamenv.go:300-324),
abstracted over the Dispatcher `dec`.  The first list argument is the
iteration snapshot of `l.env`; an entry consumed before the iteration
reaches it is skipped (a deleted map entry is not produced by a Go range).
For each remaining variable whose name starts with `prefix ++ "_"`, the
residual is split on `_`, the key is guessed through the ring, and a fresh
zero value is decoded at `parts ++ [key]` and inserted under the
lower-cased key. -/
def decodeMapLoop
    (dec : Value → List String → List String → Except String (Value × List String))
    (env : Env) (tagSupports : List String) (vt : Ty) (zf : Nat) (parts : List String) :
    List String → List (String × Value) → List String →
      Except String (List (String × Value) × List String)
  | [], acc, lenv => .ok (acc, lenv)
  | e :: rest, acc, lenv =>
    if lenv.contains e then
      let varName := buildEnvVariable parts
      let trimEnv := strTrimPrefix e (varName ++ "_")
      if trimEnv == e then decodeMapLoop dec env tagSupports vt zf parts rest acc lenv
      else
        let futureParts := splitOnChar '_' trimEnv
        match guessPrefix futureParts vt tagSupports with
        | .error err => .error err
        | .ok pfx =>
          if pfx.length == 0 then decodeMapLoop dec env tagSupports vt zf parts rest acc lenv
          else
            let keyString := toLowerStr pfx
            match dec (zeroValue zf vt) lenv (parts ++ [keyString]) with
            | .error e2 => .error e2
            | .ok (value, lenv') =>
              let key := trimSpace (toLowerStr keyString)
              decodeMapLoop dec env tagSupports vt zf parts rest (mapSet acc key value) lenv'
    else decodeMapLoop dec env tagSupports vt zf parts rest acc lenv

/-- `decodeMap` (lamenv.go:275-328), abstracted over the Dispatcher `dec`:
reject a non-string key kind, then a map value kind, before looking at any
variable; start from a fresh empty map when the target is `nil`, otherwise
from the target's entries; run the enumeration loop; finally set the built
map (never `nil`) onto the target. -/
def decodeMap
    (dec : Value → List String → List String → Except String (Value × List String))
    (env : Env) (tagSupports : List String) (zf : Nat)
    (kt vt : Ty) (isNil : Bool) (entries : List (String × Value))
    (lenv : List String) (parts : List String) : Except String (Value × List String) :=
  match kt with
  | .tstr =>
    match vt with
    | .tmap _ _ => .error "unable to unmarshal a map of a map, it's not a determinist datamodel"
    | _ =>
      let valMap := if isNil then [] else entries
      match decodeMapLoop dec env tagSupports vt zf parts lenv valMap lenv with
      | .error e => .error e
      | .ok (entries', lenv') => .ok (.vmap kt vt false entries', lenv')
  | _ => .error "unable to unmarshal a map with a key that is not a string"

/-- `decode` (lamenv.go:108-140), the Binding Dispatcher: maps, slices and
structs go to their strategies; any other kind is the scalar base case —
look up the exact built name in the process environment, and when present
delete it from the consumable snapshot and hand the raw string to
`decodeNative`, otherwise leave the value untouched with no error.  The
fuel bounds the recursion depth for Lean only. -/
def decode (env : Env) (tagSupports : List String) :
    Nat → Value → List String → List String → Except String (Value × List String)
  | 0, _, _, _ => .error "out of fuel"
  | fuel + 1, v, lenv, parts =>
    match v with
    | .vmap kt vt isNil entries =>
      decodeMap (decode env tagSupports fuel) env tagSupports fuel kt vt isNil entries lenv parts
    | .vslice et elems =>
      decodeSliceLoop (decode env tagSupports fuel) env et fuel parts fuel 0 elems lenv
    | .vstruct fields =>
      match decodeStructFields (decode env tagSupports fuel) env tagSupports fields lenv parts with
      | .error e => .error e
      | .ok (fields', lenv') => .ok (.vstruct fields', lenv')
    | _ =>
      match lookupEnv env parts with
      | (varName, some input) =>
        (decodeNative v input).map (fun v' => (v', lenv.erase varName))
      | (_, none) => .ok (v, lenv)

/-! ## The public entry points -/

/-- `Lamenv` (lamenv.go:55-65): the supported tag list and the consumable
variable-name snapshot. -/
structure Lamenv where
  TagSupports : List String
  env : List String

/-- `New` (lamenv.go:69-84): snapshot the environment's names and install
the default tag list yaml, json, mapstructure. -/
def New (procEnv : Env) : Lamenv :=
  { TagSupports := ["yaml", "json", "mapstructure"], env := newEnvNames procEnv }

/-- `(*Lamenv).Unmarshal` (lamenv.go:88-90). -/
def LamenvUnmarshal (procEnv : Env) (l : Lamenv) (fuel : Nat) (object : Value)
    (parts : List String) : Except String (Value × List String) :=
  decode procEnv l.TagSupports fuel object l.env parts

/-- The package-level `Unmarshal` (lamenv.go:50-52): `New().Unmarshal`. -/
def Unmarshal (procEnv : Env) (fuel : Nat) (object : Value) (parts : List String) :
    Except String (Value × List String) :=
  LamenvUnmarshal procEnv (New procEnv) fuel object parts

/-! ## Auxiliary definitions for the statements -/

/-- The value kinds `decodeNative` actually parses (string, bool, signed and
unsigned integers); the scalar base case of the Dispatcher. -/
def isNativeScalar : Value → Bool
  | .vstr _ => true
  | .vbool _ => true
  | .vint _ _ => true
  | .vuint _ _ => true
  | _ => false

/-- Prepend already-present elements to a decoded slice value (states how
`decodeSlice` treats its accumulated target). -/
def prependElems (elems : List Value) : Value → Value
  | .vslice t es => .vslice t (elems ++ es)
  | v => v

/-- Whether an `Except` computation succeeded. -/
def exceptIsOk {ε α : Type} : Except ε α → Bool
  | .ok _ => true
  | .error _ => false

/-- The twelve literals accepted by `strconv.ParseBool`. -/
def parseBoolLiterals : List String :=
  ["1", "t", "T", "TRUE", "true", "True", "0", "f", "F", "FALSE", "false", "False"]

/-! ## Sanity checks of the engine on the spec's own examples -/

example : decodeInt 8 "300" = .ok 44 := by decide

example : decodeBool " TRUE " = .ok true := by decide

example : buildEnvVariable ["my_prefix", "a"] = "MY_PREFIX_A" := by decide

example :
    Unmarshal [("A_F", "42")] 20 (.vstruct [("F", [], true, .vint 64 0)]) ["A"] =
      .ok (.vstruct [("F", [], true, .vint 64 42)], []) := rfl

example :
    Unmarshal [("M_KEY1", "x"), ("M_KEY2", "y")] 20 (.vmap .tstr .tstr true []) ["M"] =
      .ok (.vmap .tstr .tstr false [("key1", .vstr "x"), ("key2", .vstr "y")], []) := rfl

example :
    Unmarshal [("M_MYKEY_V", "5")] 20 (.vmap .tstr (.tstruct [("V", [], .tint 64)]) true []) ["M"] =
      .ok (.vmap .tstr (.tstruct [("V", [], .tint 64)]) false
        [("mykey", .vstruct [("V", [], true, .vint 64 5)])], []) := rfl

/-! ## Helper lemmas -/

/-- The Dispatcher's scalar base case (lamenv.go:132-138), as one equation:
for a native-scalar value the result is governed by the exact lookup of the
built variable name. -/
theorem decode_scalar_eq (env : Env) (ts : List String) (fuel : Nat) (v : Value)
    (lenv parts : List String) (h : isNativeScalar v = true) :
    decode env ts (fuel + 1) v lenv parts =
      match (lookupEnv env parts).2 with
      | some input =>
        (decodeNative v input).map (fun v' => (v', lenv.erase (buildEnvVariable parts)))
      | none => .ok (v, lenv) := by
  have hp : lookupEnv env parts = (buildEnvVariable parts, (lookupEnv env parts).2) := rfl
  cases v
  case vstr s =>
    simp only [decode]
    rw [hp]
    rcases (lookupEnv env parts).2 with _ | input <;> rfl
  case vbool b =>
    simp only [decode]
    rw [hp]
    rcases (lookupEnv env parts).2 with _ | input <;> rfl
  case vint w n =>
    simp only [decode]
    rw [hp]
    rcases (lookupEnv env parts).2 with _ | input <;> rfl
  case vuint w n =>
    simp only [decode]
    rw [hp]
    rcases (lookupEnv env parts).2 with _ | input <;> rfl
  all_goals simp [isNativeScalar] at h

/-- `decodeMap` can only succeed with a non-nil map value built from its
enumeration loop. -/
theorem decodeMap_ok_shape
    (dec : Value → List String → List String → Except String (Value × List String))
    (env : Env) (ts : List String) (zf : Nat) (kt vt : Ty) (isNil : Bool)
    (entries : List (String × Value)) (lenv parts : List String)
    (v' : Value) (lenv' : List String)
    (h : decodeMap dec env ts zf kt vt isNil entries lenv parts = .ok (v', lenv')) :
    ∃ es, v' = .vmap kt vt false es := by
  unfold decodeMap at h
  split at h
  · split at h
    · simp at h
    · simp only [] at h
      rcases hloop : decodeMapLoop dec env ts vt zf parts lenv (if isNil then [] else entries) lenv
        with e | ⟨entries', lenv''⟩
      · rw [hloop] at h
        simp at h
      · rw [hloop] at h
        rw [Except.ok.injEq, Prod.mk.injEq] at h
        exact ⟨entries', h.1.symm⟩
  · simp at h

/-! ## The claims -/

/-- C1: the claim says conventions are tried json first, then yaml, then
mapstructure, so a field tagged with both a json override `a` and a yaml
override `b` resolves to `a`.  The code (lamenv.go:79-81, 358-365) tries
`yaml` first: the same field resolves to `b`, and a struct field carrying
both tags is bound from the yaml-named variable.  This contradicts the
package's own documentation (lamenv.go:33), which promises json first. -/
theorem c1_yaml_tried_before_json :
    (New []).TagSupports = ["yaml", "json", "mapstructure"] ∧
    lookupTag [("json", "a"), ("yaml", "b")] (New []).TagSupports = some "b" ∧
    Unmarshal [("P_A", "7"), ("P_B", "9")] 20
      (.vstruct [("F", [("json", "a"), ("yaml", "b")], true, .vint 64 0)]) ["P"] =
      .ok (.vstruct [("F", [("json", "a"), ("yaml", "b")], true, .vint 64 9)], ["P_A"]) :=
  ⟨rfl, rfl, rfl⟩

/-- C2: the claim says the name is parsed out of a `name,omitempty` spec and
used as the effective lookup name.  The code (lamenv.go:254-268) never
parses the spec: both the omit-if-absent probe and the recursion use the raw
string `a,omitempty` as a path segment, so the probe looks for variables
containing `MY_PREFIX_A,OMITEMPTY` and the field is always skipped — the
package's own usage example (lamenv.go:40-49) would leave `F` at zero
instead of binding it from `MY_PREFIX_A`. -/
theorem c2_omitempty_spec_used_raw :
    lookupTag [("json", "a,omitempty")] defaultTagSupported = some "a,omitempty" ∧
    contains [("MY_PREFIX_A", "1"), ("MY_PREFIX_B", "2")] ["MY_PREFIX", "a,omitempty"] = false ∧
    Unmarshal [("MY_PREFIX_A", "1"), ("MY_PREFIX_B", "2")] 20
      (.vstruct [("F", [("json", "a,omitempty")], true, .vint 64 0), ("B", [], true, .vint 64 0)])
      ["MY_PREFIX"] =
      .ok
        (.vstruct [("F", [("json", "a,omitempty")], true, .vint 64 0),
          ("B", [], true, .vint 64 2)],
        ["MY_PREFIX_A"]) :=
  ⟨rfl, rfl, rfl⟩

/-- C4: the scalar base case.  For every native-scalar target and path: if
no variable named exactly the built name exists, the value is left
untouched and no error is returned; if it exists and the literal parses,
the decoded value is the parsed one and the name is consumed; if parsing
fails, the parse error is surfaced unmodified. -/
theorem c4_scalar_base_case (env : Env) (ts : List String) (fuel : Nat) (v : Value)
    (lenv parts : List String) (h : isNativeScalar v = true) :
    ((lookupEnv env parts).2 = none →
      decode env ts (fuel + 1) v lenv parts = .ok (v, lenv)) ∧
    (∀ input v', (lookupEnv env parts).2 = some input → decodeNative v input = .ok v' →
      decode env ts (fuel + 1) v lenv parts = .ok (v', lenv.erase (buildEnvVariable parts))) ∧
    (∀ input e, (lookupEnv env parts).2 = some input → decodeNative v input = .error e →
      decode env ts (fuel + 1) v lenv parts = .error e) := by
  rw [decode_scalar_eq env ts fuel v lenv parts h]
  refine ⟨fun hn => ?_, fun input v' hs hd => ?_, fun input e hs hd => ?_⟩
  · rw [hn]
  · rw [hs]
    show (decodeNative v input).map (fun x => (x, lenv.erase (buildEnvVariable parts))) =
      Except.ok (v', lenv.erase (buildEnvVariable parts))
    rw [hd]
    rfl
  · rw [hs]
    show (decodeNative v input).map (fun x => (x, lenv.erase (buildEnvVariable parts))) =
      Except.error e
    rw [hd]
    rfl

/-- Witness for C4 at the spec's own example: prefix `A`, field variable
`A_F=42`, an int target decodes to 42 and consumes the name. -/
theorem c4_scalar_base_case_witness :
    isNativeScalar (Value.vint 64 0) = true ∧
    decode [("A_F", "42")] defaultTagSupported 4 (.vint 64 0) ["A_F"] ["A", "F"] =
      .ok (.vint 64 42, []) :=
  ⟨rfl,
    (c4_scalar_base_case [("A_F", "42")] defaultTagSupported 3 (.vint 64 0) ["A_F"] ["A", "F"]
        rfl).2.1 "42" (.vint 64 42) rfl rfl⟩

/-- C5: mapping preconditions are checked eagerly.  A non-string key kind,
or a map value kind, makes the bind fail with the corresponding config
error for EVERY environment (the result does not depend on `env`, so no
variable is read) and no success value is produced (the target is not
modified; the code returns before its only write, lamenv.go:326). -/
theorem c5_mapping_preconditions (env : Env) (ts : List String) (fuel : Nat)
    (kt vt : Ty) (isNil : Bool) (entries : List (String × Value))
    (lenv parts : List String) :
    (kt ≠ .tstr →
      decode env ts (fuel + 1) (.vmap kt vt isNil entries) lenv parts =
        .error "unable to unmarshal a map with a key that is not a string") ∧
    (∀ kt' vt', vt = .tmap kt' vt' →
      decode env ts (fuel + 1) (.vmap .tstr vt isNil entries) lenv parts =
        .error "unable to unmarshal a map of a map, it's not a determinist datamodel") := by
  constructor
  · intro hk
    cases kt
    case tstr => exact absurd rfl hk
    all_goals rfl
  · intro kt' vt' hv
    subst hv
    rfl

/-- Witness for C5: an int-keyed map and a map-of-maps are both rejected. -/
theorem c5_mapping_preconditions_witness :
    Ty.tint 64 ≠ Ty.tstr ∧
    decode [("M_X", "1")] defaultTagSupported 5 (.vmap (.tint 64) .tstr true []) ["M_X"] ["M"] =
      .error "unable to unmarshal a map with a key that is not a string" ∧
    decode [("M_X", "1")] defaultTagSupported 5 (.vmap .tstr (.tmap .tstr .tstr) true [])
        ["M_X"] ["M"] =
      .error "unable to unmarshal a map of a map, it's not a determinist datamodel" :=
  ⟨fun hk => Ty.noConfusion hk,
    (c5_mapping_preconditions [("M_X", "1")] defaultTagSupported 4 (.tint 64) .tstr true []
        ["M_X"] ["M"]).1 (fun hk => Ty.noConfusion hk),
    (c5_mapping_preconditions [("M_X", "1")] defaultTagSupported 4 .tstr (.tmap .tstr .tstr) true []
        ["M_X"] ["M"]).2 .tstr .tstr rfl⟩

/-- C6: sequence binding probes indices 0, 1, 2, … and stops at the first
index whose substring probe fails: `A_0=1, A_1=2, A_2=3` yields `[1,2,3]`
in index order, while the gapped `A_0=1, A_2=3` yields the truncated `[1]`
with no error (`A_2` is left unconsumed). -/
theorem c6_sequence_index_probing :
    Unmarshal [("A_0", "1"), ("A_1", "2"), ("A_2", "3")] 20 (.vslice (.tint 64) []) ["A"] =
      .ok (.vslice (.tint 64) [.vint 64 1, .vint 64 2, .vint 64 3], []) ∧
    Unmarshal [("A_0", "1"), ("A_2", "3")] 20 (.vslice (.tint 64) []) ["A"] =
      .ok (.vslice (.tint 64) [.vint 64 1], ["A_2"]) :=
  ⟨rfl, rfl⟩

/-- C10: binding a nil map that succeeds always leaves a non-nil map (the
`isNil` flag of the result is `false`): the code always assigns the freshly
made map (lamenv.go:284-288, 325-327).  First conjunct: every successful
bind of a nil map yields a non-nil map value.  Second and third conjuncts:
the zero-matching-variable case in particular succeeds and yields a non-nil
EMPTY map — with an empty environment, and with an environment whose only
variable does not start with the mapping's prefix `M_` (so its enumeration
loop adds no entry). -/
theorem c10_nil_map_success_is_non_nil (env : Env) (ts : List String) (fuel : Nat)
    (kt vt : Ty) (entries : List (String × Value)) (lenv parts : List String)
    (v' : Value) (lenv' : List String)
    (h : decode env ts (fuel + 1) (.vmap kt vt true entries) lenv parts = .ok (v', lenv')) :
    (∃ es, v' = .vmap kt vt false es) ∧
    Unmarshal [] 20 (.vmap .tstr .tstr true []) ["M"] =
      .ok (.vmap .tstr .tstr false [], []) ∧
    Unmarshal [("X_Y", "1")] 20 (.vmap .tstr .tstr true []) ["M"] =
      .ok (.vmap .tstr .tstr false [], ["X_Y"]) :=
  ⟨decodeMap_ok_shape (decode env ts fuel) env ts fuel kt vt true entries lenv parts v' lenv' h,
    rfl, rfl⟩

/-- Witness for C10 on a concrete run with a matching variable; the
zero-matching-variable conjuncts of the theorem are closed statements and
are restated here as instantiated. -/
theorem c10_nil_map_success_is_non_nil_witness :
    (∃ es, (Value.vmap Ty.tstr Ty.tstr false [("key1", Value.vstr "x")]) =
      Value.vmap Ty.tstr Ty.tstr false es) ∧
    Unmarshal [] 20 (.vmap .tstr .tstr true []) ["M"] =
      .ok (.vmap .tstr .tstr false [], []) ∧
    Unmarshal [("X_Y", "1")] 20 (.vmap .tstr .tstr true []) ["M"] =
      .ok (.vmap .tstr .tstr false [], ["X_Y"]) :=
  c10_nil_map_success_is_non_nil [("M_KEY1", "x")] defaultTagSupported 19 .tstr .tstr []
    ["M_KEY1"] ["M"] (.vmap .tstr .tstr false [("key1", .vstr "x")]) [] rfl

/-- The Dispatcher's scalar base case when the exact lookup succeeds. -/
theorem decode_scalar_some (env : Env) (ts : List String) (fuel : Nat) (v : Value)
    (lenv parts : List String) (input : String) (h : isNativeScalar v = true)
    (hs : (lookupEnv env parts).2 = some input) :
    decode env ts (fuel + 1) v lenv parts =
      (decodeNative v input).map (fun x => (x, lenv.erase (buildEnvVariable parts))) := by
  rw [decode_scalar_eq env ts fuel v lenv parts h, hs]

/-- C3 (counterexample): `Unmarshal` is not idempotent.  With `A_0=1`, a
first run on an empty `[]int` target yields `[1]`; a second run on the
already-populated target appends again and yields `[1,1]`, not `[1]`. -/
theorem c3_counterexample_rerun_duplicates :
    Unmarshal [("A_0", "1")] 20 (.vslice (.tint 64) []) ["A"] =
      .ok (.vslice (.tint 64) [.vint 64 1], []) ∧
    Unmarshal [("A_0", "1")] 20 (.vslice (.tint 64) [.vint 64 1]) ["A"] =
      .ok (.vslice (.tint 64) [.vint 64 1, .vint 64 1], []) ∧
    (Value.vslice (.tint 64) [.vint 64 1, .vint 64 1]) ≠ .vslice (.tint 64) [.vint 64 1] :=
  ⟨rfl, rfl, by simp⟩

/-- C3 (amended): re-running `Unmarshal` with no environment change is a
no-op except on sequence targets, where `decodeSlice` appends to whatever
elements the target already holds (lamenv.go:229): decoding a slice from an
already-populated accumulator equals prepending the accumulated elements to
the result of a fresh run, so a second run appends the same decoded
elements again instead of being a no-op. -/
theorem c3_amended_slice_rerun_appends
    (dec : Value → List String → List String → Except String (Value × List String))
    (env : Env) (sliceTy : Ty) (zf : Nat) (parts : List String) :
    ∀ (fuel i : Nat) (elems : List Value) (lenv : List String),
      decodeSliceLoop dec env sliceTy zf parts fuel i elems lenv =
        (decodeSliceLoop dec env sliceTy zf parts fuel i [] lenv).map
          (fun r => (prependElems elems r.1, r.2)) := by
  intro fuel
  induction fuel with
  | zero => intro i elems lenv; rfl
  | succ fuel ih =>
    intro i elems lenv
    simp only [decodeSliceLoop]
    cases hc : contains env (parts ++ [Nat.repr i])
    · simp only [hc, Bool.false_eq_true, if_false, Except.map, prependElems, List.append_nil]
    · simp only [hc, if_true]
      rcases hd : dec (zeroValue zf sliceTy) lenv (parts ++ [Nat.repr i]) with e | ⟨tmp, lenv'⟩
      · rfl
      · dsimp only
        rw [ih (i + 1) (elems ++ [tmp]) lenv', ih (i + 1) ([] ++ [tmp]) lenv']
        rcases hres : decodeSliceLoop dec env sliceTy zf parts fuel (i + 1) [] lenv'
          with e | ⟨rv, rl⟩
        · rfl
        · cases rv <;> simp [prependElems, Except.map]

/-- C7 (counterexample): the claim says a consumed variable is never bound
into two different target locations.  With `P_A=5` and a struct whose field
`A` (no tag) and field `B` (tagged `json:"a"`) both resolve to the variable
name `P_A`, the first bind consumes `P_A` from the snapshot (the final
snapshot is empty), yet the sibling's exact lookup — which consults the
process environment, not the snapshot (lamenv.go:352-356) — binds the same
variable again: both fields end at 5. -/
theorem c7_counterexample_variable_rebound :
    Unmarshal [("P_A", "5")] 20
      (.vstruct [("A", [], true, .vint 64 0), ("B", [("json", "a")], true, .vint 64 0)]) ["P"] =
      .ok (.vstruct [("A", [], true, .vint 64 5), ("B", [("json", "a")], true, .vint 64 5)], []) ∧
    (Value.vint 64 5) ≠ .vint 64 0 :=
  ⟨rfl, by simp⟩

/-- C7 (amended): a successful scalar bind does remove the variable name
from the consumable snapshot (first conjunct), and the Mapping Strategy's
enumeration skips any entry no longer in the snapshot when the iteration
reaches it (second conjunct); concretely, a variable consumed by an earlier
sibling is invisible to a later map bind (third conjunct: `P_M_K` is
consumed by the field tagged `m_k`, so the map `M` stays empty).  But
consumption does not prevent re-binding by exact lookups, which consult the
process environment (see the counterexample). -/
theorem c7_amended_consumption_scoped_to_snapshot (env : Env) (ts : List String) (fuel : Nat)
    (v : Value) (lenv parts : List String) (h : isNativeScalar v = true) :
    (∀ input v' lenv'', (lookupEnv env parts).2 = some input →
      decodeNative v input = .ok v' →
      decode env ts (fuel + 1) v lenv parts = .ok (v', lenv'') →
      lenv'' = lenv.erase (buildEnvVariable parts)) ∧
    (∀ dec vt zf e rest acc lenv₀, lenv₀.contains e = false →
      decodeMapLoop dec env ts vt zf parts (e :: rest) acc lenv₀ =
        decodeMapLoop dec env ts vt zf parts rest acc lenv₀) ∧
    Unmarshal [("P_M_K", "7")] 20
      (.vstruct [("A", [("json", "m_k")], true, .vint 64 0),
        ("M", [], true, .vmap .tstr (.tint 64) true [])]) ["P"] =
      .ok (.vstruct [("A", [("json", "m_k")], true, .vint 64 7),
        ("M", [], true, .vmap .tstr (.tint 64) false [])], []) := by
  refine ⟨fun input v' lenv'' hs hd hdec => ?_, fun dec vt zf e rest acc lenv₀ he => ?_, rfl⟩
  · have h2 : decode env ts (fuel + 1) v lenv parts =
        .ok (v', lenv.erase (buildEnvVariable parts)) := by
      rw [decode_scalar_some env ts fuel v lenv parts input h hs, hd]
      rfl
    rw [h2] at hdec
    rw [Except.ok.injEq, Prod.mk.injEq] at hdec
    exact hdec.2.symm
  · simp only [decodeMapLoop, he, Bool.false_eq_true, if_false]

/-- Witness for C7 (amended) at a concrete input: binding `A_F=42` into an
int consumes the name `A_F` from the snapshot. -/
theorem c7_amended_consumption_witness :
    isNativeScalar (Value.vint 64 0) = true ∧ ([] : List String) = ["A_F"].erase "A_F" :=
  ⟨rfl,
    (c7_amended_consumption_scoped_to_snapshot [("A_F", "42")] defaultTagSupported 3
        (.vint 64 0) ["A_F"] ["A", "F"] rfl).1 "42" (.vint 64 42) [] rfl rfl rfl⟩

/-- Mapping a function over an `Except` preserves success. -/
theorem exceptIsOk_map {ε α β : Type} (f : α → β) (x : Except ε α) :
    exceptIsOk (x.map f) = exceptIsOk x := by
  cases x <;> rfl

/-- C8 (counterexample): the claim says boolean decoding is case-insensitive,
accepting every casing such as `tRuE`.  `strconv.ParseBool` accepts only the
twelve exact literals `1,t,T,TRUE,true,True,0,f,F,FALSE,false,False`, so
`tRuE` is rejected with a parse error instead of decoding successfully. -/
theorem c8_counterexample_mixed_case_rejected :
    decodeBool "tRuE" = .error "invalid syntax" ∧
    exceptIsOk (decodeBool "tRuE") = false :=
  ⟨rfl, rfl⟩

/-- C8 (amended): after trimming surrounding whitespace, boolean decoding
accepts exactly the twelve literals of `strconv.ParseBool` — the lowercase,
UPPERCASE and Titlecase forms of true/false and the digits 1/0 — decoding
the six truthy ones to `true` and the six falsy ones to `false`, and fails
with a parse error on everything else (arbitrary mixed casings included). -/
theorem c8_amended_parsebool_literal_set (input : String) :
    (decodeBool input = .ok true ↔
      trimSpace input ∈ (["1", "t", "T", "TRUE", "true", "True"] : List String)) ∧
    (decodeBool input = .ok false ↔
      trimSpace input ∈ (["0", "f", "F", "FALSE", "false", "False"] : List String)) ∧
    (exceptIsOk (decodeBool input) = false ↔ trimSpace input ∉ parseBoolLiterals) := by
  simp only [decodeBool]
  generalize trimSpace input = s
  by_cases hm : s ∈ parseBoolLiterals
  · fin_cases hm <;> exact ⟨by decide, by decide, by decide⟩
  · have h1 : (s == "1" || s == "t" || s == "T" || s == "TRUE" || s == "true" || s == "True")
        = false := by
      simp only [Bool.or_eq_false_iff, beq_eq_false_iff_ne, ne_eq]
      refine ⟨⟨⟨⟨⟨?_, ?_⟩, ?_⟩, ?_⟩, ?_⟩, ?_⟩ <;> (intro hh; exact hm (by rw [hh]; decide))
    have h2 : (s == "0" || s == "f" || s == "F" || s == "FALSE" || s == "false" || s == "False")
        = false := by
      simp only [Bool.or_eq_false_iff, beq_eq_false_iff_ne, ne_eq]
      refine ⟨⟨⟨⟨⟨?_, ?_⟩, ?_⟩, ?_⟩, ?_⟩, ?_⟩ <;> (intro hh; exact hm (by rw [hh]; decide))
    simp only [parseBool, h1, h2, Bool.false_eq_true, if_false]
    refine ⟨iff_of_false (by simp) (fun hmm => hm ?_), iff_of_false (by simp) (fun hmm => hm ?_),
      iff_of_true rfl hm⟩
    · simp only [parseBoolLiterals, List.mem_cons, List.not_mem_nil, or_false] at hmm ⊢
      tauto
    · simp only [parseBoolLiterals, List.mem_cons, List.not_mem_nil, or_false] at hmm ⊢
      tauto

/-- C9 (counterexample): the claim says a value that fits the native width
but overflows the target's narrower declared width (300 into an 8-bit
target) yields a ParseError.  The code parses at the native width and then
stores through `reflect.Value.SetInt`/`SetUint`, which convert — i.e.
truncate — to the declared width without any range check: 300 into 8 bits
succeeds and stores 44 (both signed and unsigned). -/
theorem c9_counterexample_narrow_overflow_truncates :
    decodeInt 8 "300" = .ok 44 ∧ decodeUInt 8 "300" = .ok 44 :=
  ⟨rfl, rfl⟩

/-- C9 (amended): integer decoding is total — every input either stores a
value or returns a parse error, and nothing else — but narrowing is not
checked: whether decoding succeeds is independent of the declared width
(success is decided by the native 64-bit parse alone), a successful parse
stores the parsed value truncated two's-complement to the declared width,
and in particular 300 into an 8-bit target stores 44 instead of failing. -/
theorem c9_amended_success_independent_of_width :
    (∀ w w' s, exceptIsOk (decodeInt w s) = exceptIsOk (decodeInt w' s)) ∧
    (∀ w w' s, exceptIsOk (decodeUInt w s) = exceptIsOk (decodeUInt w' s)) ∧
    (∀ w s n, parseInt64 (trimSpace s) = .ok n → decodeInt w s = .ok (wrapInt w n)) ∧
    (∀ w s n, parseUint64 (trimSpace s) = .ok n → decodeUInt w s = .ok (wrapUint w n)) ∧
    decodeInt 8 "300" = .ok 44 := by
  refine ⟨fun w w' s => ?_, fun w w' s => ?_, fun w s n hp => ?_, fun w s n hp => ?_, rfl⟩
  · simp only [decodeInt]
    rw [exceptIsOk_map, exceptIsOk_map]
  · simp only [decodeUInt]
    rw [exceptIsOk_map, exceptIsOk_map]
  · simp only [decodeInt]
    rw [hp]
    rfl
  · simp only [decodeUInt]
    rw [hp]
    rfl
